import Mathlib

/-!
Verification of `basic_query.py`: a shallow embedding of the module in Lean 4,
together with theorems settling the specification claims about it.

Modelling conventions:
* Python strings are Lean `String`s (sequences of Unicode scalar values).
* A Python call that may raise is a value of `Except String α`; the error
  component is the stringified exception message (`str(e)`).
* The remote dependency `client.models.generate_content` is an opaque field of
  the `Client` handle: a function from the request payload to an `Except`.
  Stub clients instantiate it for the claims.
* Side effects of one invocation (lines printed, the single write to
  `data.json`) are returned explicitly in an `Effects` record; the on-disk
  state of `data.json` is threaded separately through `runFile`.
* `json.dump(d, f, indent=4)` and `json.loads` are modelled character by
  character for the shapes this program produces (objects with string values),
  following CPython's `py_encode_basestring_ascii` / `py_scanstring`.
-/

namespace BasicQuery

/-- The response object of the remote call; the code only uses `.text`. -/
structure GenAIResponse where
  text : String
deriving Repr, DecidableEq

/-- Payload of `types.FileData(file_uri=...)`. -/
structure FileData where
  file_uri : String
deriving Repr, DecidableEq

/-- Payload of `types.Part(...)`: either a file reference or an instruction text. -/
structure Part where
  file_data : Option FileData
  text : Option String
deriving Repr, DecidableEq

/-- Payload of `types.Content(parts=[...])`. -/
structure Content where
  parts : List Part
deriving Repr, DecidableEq

/-- The arguments of one `client.models.generate_content(model=..., contents=...)` call. -/
structure GenerateContentArgs where
  model : String
  contents : Content
deriving Repr, DecidableEq

/-- The `client.models` attribute: an opaque remote dispatcher that may raise. -/
structure ModelsAPI where
  generate_content : GenerateContentArgs → Except String GenAIResponse

/-- An opaque `genai.Client` handle. -/
structure Client where
  models : ModelsAPI

/-- `types.Part(file_data=types.FileData(file_uri=u))`. -/
def Part.ofFile (u : String) : Part := ⟨some ⟨u⟩, none⟩

/-- `types.Part(text=t)`. -/
def Part.ofText (t : String) : Part := ⟨none, some t⟩

/-- The fixed instruction string of `generate_video_summary` (source lines 33-37),
transcribed verbatim from the triple-quoted literal. -/
def summary_prompt : String :=
  "\n                    Please analyze this YouTube video and provide a comprehensive summary of what it\x27s about.\n                    Include the main topics, key points, and overall theme of the video.\n                    Provide a detailed summary in 2-3 paragraphs.\n                    "

/-- The fixed instruction string of `generate_section_breakdown` (source lines
57-89), transcribed verbatim; literal braces are written as `\x7b`/`\x7d`. -/
def section_breakdown_prompt : String :=
  "\n                    Please analyze this YouTube video and create a detailed section breakdown.\n                    For each section, provide:\n                    1. A descriptive title\n                    2. The timestamp range (start and end times in MM:SS format)\n                    3. A brief description of what happens in that section\n\n                    You do not need to create too many sections -- a section should be approximately 1 or 2 minutes long.\n                    \n                    Return the response in JSON format only, using this exact structure:\n                    ```\n                    \x7b\n                        \"sections\": [\n                            \x7b\n                                \"title\": \"Descriptive Title of Section 1\",\n                                \"time_range\": \x7b\n                                    \"start\": \"MM:SS\",\n                                    \"end\": \"MM:SS\"\n                                \x7d,\n                                \"description\": \"Brief description of the content and events in Section 1.\"\n                            \x7d,\n                            \x7b\n                                \"title\": \"Descriptive Title of Section 2\",\n                                \"time_range\": \x7b\n                                    \"start\": \"MM:SS\",\n                                    \"end\": \"MM:SS\"\n                                \x7d,\n                                \"description\": \"Brief description of the content and events in Section 2.\"\n                            \x7d\n                        ]\n                    \x7d\n                    ```\n                    "

/-- Everything of the `process_user_question` f-string (source lines 126-136)
that precedes the interpolated `{question}`. -/
def question_prompt_before : String :=
  "\n                    Based on the content of this YouTube video, please answer the following question:\n                    \n                    Question: "

/-- Everything of the `process_user_question` f-string that follows the
interpolated `{question}` (note the trailing space after "timestamps"). -/
def question_prompt_after : String :=
  "\n                    \n                    Please provide a detailed answer based on what you can see and hear in the video.\n                    If you reference specific parts of the video, please include approximate timestamps \n                    in MM:SS format (e.g., \"At around 02:30, the speaker mentions...\").\n                    \n                    If the question cannot be answered based on the video content, please say so.\n                    "

/-- The request payload assembled by `generate_video_summary` (source lines 25-41). -/
def generate_video_summary_request (youtube_url : String) (model_name : String) :
    GenerateContentArgs :=
  ⟨model_name, ⟨[Part.ofFile youtube_url, Part.ofText summary_prompt]⟩⟩

/-- `generate_video_summary` (source lines 21-43): dispatches one request and
returns `response.text`; any failure of the dispatch propagates. -/
def generate_video_summary (youtube_url : String) (client : Client)
    (model_name : String) : Except String String := do
  let response ← client.models.generate_content
    (generate_video_summary_request youtube_url model_name)
  pure response.text

/-- The request payload assembled by `generate_section_breakdown` (source lines 49-93). -/
def generate_section_breakdown_request (youtube_url : String) (model_name : String) :
    GenerateContentArgs :=
  ⟨model_name, ⟨[Part.ofFile youtube_url, Part.ofText section_breakdown_prompt]⟩⟩

/-- `generate_section_breakdown` (source lines 45-95). -/
def generate_section_breakdown (youtube_url : String) (client : Client)
    (model_name : String) : Except String String := do
  let response ← client.models.generate_content
    (generate_section_breakdown_request youtube_url model_name)
  pure response.text

/-- The request payload assembled by `process_user_question` (source lines 118-140);
the user's question is interpolated verbatim into the f-string template. -/
def process_user_question_request (question : String) (youtube_url : String)
    (model_name : String) : GenerateContentArgs :=
  ⟨model_name,
    ⟨[Part.ofFile youtube_url,
      Part.ofText (question_prompt_before ++ question ++ question_prompt_after)]⟩⟩

/-- `process_user_question` (source lines 114-144). -/
def process_user_question (question : String) (youtube_url : String) (client : Client)
    (model_name : String) : Except String String := do
  let response ← client.models.generate_content
    (process_user_question_request question youtube_url model_name)
  pure response.text

/-- Python's `s.split(sep)` for a one-character separator, on the character list:
splits at every occurrence of `sep`, keeping empty fragments; the result is
always non-empty. -/
def pySplitChar (sep : Char) : List Char → List (List Char)
  | [] => [[]]
  | c :: r =>
    if c = sep then [] :: pySplitChar sep r
    else
      match pySplitChar sep r with
      | [] => [[c]]
      | g :: gs => (c :: g) :: gs

/-- Python's `lst[-1]` on a non-empty list (with a default for the empty case,
which `pySplitChar` never produces). -/
def pyLast (xs : List (List Char)) : List Char := xs.getLastD []

/-- `extract_video_metadata` (source lines 97-112): placeholder metadata, with
`video_id` computed as `youtube_url.split('/')[-1] if '/' in youtube_url else youtube_url`. -/
def extract_video_metadata (youtube_url : String) : List (String × String) :=
  [("title", "Video Title"),
   ("duration", "Unknown"),
   ("description", "Video Description"),
   ("video_id",
     if '/' ∈ youtube_url.data
     then String.mk (pyLast (pySplitChar '/' youtube_url.data))
     else youtube_url)]

/-- `initialize_gemini_client` (source lines 9-19). The external constructor
`genai.Client(api_key=os.getenv('GEMINI_API_KEY'))` is not code of this
repository; it is passed in as an opaque total constructor `genaiClient`
applied to the environment credential (present, absent, or malformed), since
the function itself performs no validation of the credential. -/
def initialize_gemini_client (genaiClient : Option String → Client)
    (gemini_api_key : Option String) : Client × String :=
  (genaiClient gemini_api_key, "models/gemini-2.0-flash")

/-- One `print(...)` event of the orchestrator: either the result dict
(line 172) or the error diagnostic f-string (line 180). -/
inductive PrintedLine
  | dict (d : List (String × String))
  | msg (s : String)
deriving Repr, DecidableEq

/-- The observable side effects of one `analyze_video_with_chat` invocation:
the lines printed and the content written to `data.json` (if any). -/
structure Effects where
  printed : List PrintedLine
  written : Option String
deriving Repr, DecidableEq

/-- Lowercase hex digit, as CPython's `"%04x"` formatting uses. -/
def toHexDigit (n : Nat) : Char := Char.ofNat (if n < 10 then 48 + n else 87 + n)

/-- Value of one hex digit character, if it is one. -/
def hexVal (c : Char) : Option Nat :=
  if 48 ≤ c.toNat ∧ c.toNat ≤ 57 then some (c.toNat - 48)
  else if 97 ≤ c.toNat ∧ c.toNat ≤ 102 then some (c.toNat - 87)
  else if 65 ≤ c.toNat ∧ c.toNat ≤ 70 then some (c.toNat - 55)
  else none

/-- The four hex digits of `n % 0x10000`, most significant first. -/
def hex4 (n : Nat) : List Char :=
  [toHexDigit (n / 4096 % 16), toHexDigit (n / 256 % 16),
   toHexDigit (n / 16 % 16), toHexDigit (n % 16)]

/-- How `json.dump` (with its default `ensure_ascii=True`) escapes one character
inside a string literal, following CPython's `py_encode_basestring_ascii`:
named short escapes, printable ASCII verbatim, `\uXXXX` otherwise, with a
surrogate pair for code points above `0xFFFF`. -/
def escapeChar (c : Char) : List Char :=
  if c = '"' then ['\\', '"']
  else if c = '\\' then ['\\', '\\']
  else if c = '\n' then ['\\', 'n']
  else if c = '\r' then ['\\', 'r']
  else if c = '\t' then ['\\', 't']
  else if c.toNat = 8 then ['\\', 'b']
  else if c.toNat = 12 then ['\\', 'f']
  else if 32 ≤ c.toNat ∧ c.toNat ≤ 126 then [c]
  else if c.toNat < 65536 then '\\' :: 'u' :: hex4 c.toNat
  else
    '\\' :: 'u' :: (hex4 (55296 + (c.toNat - 65536) / 1024) ++
      ('\\' :: 'u' :: hex4 (56320 + (c.toNat - 65536) % 1024)))

/-- Escape every character of a string body. -/
def pyEscape : List Char → List Char
  | [] => []
  | c :: r => escapeChar c ++ pyEscape r

/-- One `"key": "value"` member as `json.dump` emits it (key separator `": "`). -/
def serMember (k v : String) : List Char :=
  '"' :: (pyEscape k.data ++ ('"' :: ':' :: ' ' :: '"' :: (pyEscape v.data ++ ['"'])))

/-- The four-space indentation of `indent=4`. -/
def indent4 : List Char := [' ', ' ', ' ', ' ']

/-- The member lines of `json.dump(d, f, indent=4)`, separated by `",\n"` and
each prefixed by the indentation. -/
def serMembers : List (String × String) → List Char
  | [] => []
  | (k, v) :: rest =>
    match rest with
    | [] => indent4 ++ serMember k v
    | _ :: _ => indent4 ++ (serMember k v ++ (',' :: '\n' :: serMembers rest))

/-- `json.dumps(d, indent=4)` for a dict with string keys and values, in
insertion order: `{}` for the empty dict, otherwise `{\n` members `\n}`. -/
def pyJsonDumps4 (d : List (String × String)) : String :=
  match d with
  | [] => String.mk ['\x7b', '\x7d']
  | _ => String.mk ('\x7b' :: '\n' :: (serMembers d ++ ['\n', '\x7d']))

/-- Skip JSON whitespace, as `json.loads` does between tokens. -/
def skipWs : List Char → List Char
  | [] => []
  | c :: r => if c = ' ' ∨ c = '\t' ∨ c = '\n' ∨ c = '\r' then skipWs r else c :: r

/-- Decode a single-character backslash escape of a JSON string. -/
def escDecode (e : Char) : Option Char :=
  if e = '"' then some '"'
  else if e = '\\' then some '\\'
  else if e = '/' then some '/'
  else if e = 'b' then some (Char.ofNat 8)
  else if e = 'f' then some (Char.ofNat 12)
  else if e = 'n' then some '\n'
  else if e = 'r' then some '\r'
  else if e = 't' then some '\t'
  else none

/-- Outcome of scanning one element of a JSON string body: the closing quote,
one decoded character, or a scan error. -/
inductive ScanStep where
  | close (rest : List Char)
  | chr (c : Char) (rest : List Char)
  | fail
deriving Repr, DecidableEq

/-- Decode the `\uXXXX` low half of a surrogate pair whose high half decoded
to `n`, as `py_scanstring` does, yielding the combined code point. -/
def scanLow (n : Nat) : List Char → ScanStep
  | s1 :: s2 :: a :: b :: e :: d :: r5 =>
    if s1 = '\\' ∧ s2 = 'u' then
      match hexVal a, hexVal b, hexVal e, hexVal d with
      | some x, some y, some z, some w =>
        let m := x * 4096 + y * 256 + z * 16 + w
        if 56320 ≤ m ∧ m < 57344 then
          ScanStep.chr (Char.ofNat (65536 + (n - 55296) * 1024 + (m - 56320))) r5
        else ScanStep.fail
      | _, _, _, _ => ScanStep.fail
    else ScanStep.fail
  | _ => ScanStep.fail

/-- Decode a `\uXXXX` escape (input positioned after the `\u`): a high
surrogate must be followed by a low one, a lone low surrogate is rejected
(it is not representable as a Lean `Char`; the serializer never emits one
for a well-formed string), anything else is the code point itself. -/
def scanU : List Char → ScanStep
  | a :: b :: e :: d :: r3 =>
    match hexVal a, hexVal b, hexVal e, hexVal d with
    | some x, some y, some z, some w =>
      let n := x * 4096 + y * 256 + z * 16 + w
      if 55296 ≤ n ∧ n < 56320 then scanLow n r3
      else if 56320 ≤ n ∧ n < 57344 then ScanStep.fail
      else ScanStep.chr (Char.ofNat n) r3
    | _, _, _, _ => ScanStep.fail
  | _ => ScanStep.fail

/-- Decode one backslash escape (input positioned after the backslash). -/
def scanEscape : List Char → ScanStep
  | [] => ScanStep.fail
  | e :: r2 =>
    if e = 'u' then scanU r2
    else
      match escDecode e with
      | some ec => ScanStep.chr ec r2
      | none => ScanStep.fail

/-- Scan one element of a JSON string body, following CPython's strict
`py_scanstring`: a closing quote ends the body; a backslash starts an escape;
a literal character must be at least `0x20`. -/
def scanOne : List Char → ScanStep
  | [] => ScanStep.fail
  | c :: r =>
    if c = '"' then ScanStep.close r
    else if c = '\\' then scanEscape r
    else if c.toNat < 32 then ScanStep.fail
    else ScanStep.chr c r

/-- Iterate `scanOne` until the closing quote, collecting the decoded body.
Fuelled; every step consumes at least one input character, so fuel
`l.length + 1` is always enough. -/
def scanStr : Nat → List Char → Option (List Char × List Char)
  | 0, _ => none
  | fuel + 1, l =>
    match scanOne l with
    | ScanStep.close rest => some ([], rest)
    | ScanStep.chr c rest =>
      match scanStr fuel rest with
      | some (s, r) => some (c :: s, r)
      | none => none
    | ScanStep.fail => none

/-- Scan a JSON string body up to and including the closing quote, returning
the decoded body and the remaining input. -/
def parseStrAux (l : List Char) : Option (List Char × List Char) :=
  scanStr (l.length + 1) l

/-- Parse a complete JSON string token (opening quote included). -/
def parseJString : List Char → Option (List Char × List Char)
  | [] => none
  | c :: r => if c = '"' then parseStrAux r else none

/-- Parse the members of a JSON object whose values are strings, positioned
after the opening brace; consumes the closing brace. Fuelled by an upper bound
on the number of members. -/
def parseMembers : Nat → List Char → Option (List (String × String) × List Char)
  | 0, _ => none
  | fuel + 1, l =>
    match parseJString (skipWs l) with
    | none => none
    | some (k, r1) =>
      match skipWs r1 with
      | [] => none
      | c2 :: r2 =>
        if c2 = ':' then
          match parseJString (skipWs r2) with
          | none => none
          | some (v, r3) =>
            match skipWs r3 with
            | [] => none
            | c4 :: r4 =>
              if c4 = ',' then
                match parseMembers fuel r4 with
                | some (ms, rest) => some ((String.mk k, String.mk v) :: ms, rest)
                | none => none
              else if c4 = '\x7d' then some ([(String.mk k, String.mk v)], r4)
              else none
        else none

/-- `json.loads` restricted to the JSON subset this program ever writes: a
single object whose values are strings, with nothing but whitespace around it.
Everything it accepts is valid JSON, and it accepts everything `pyJsonDumps4`
produces. -/
def pyJsonLoadsObj (s : String) : Option (List (String × String)) :=
  match skipWs s.data with
  | [] => none
  | c :: r =>
    if c = '\x7b' then
      match skipWs r with
      | c2 :: rest =>
        if c2 = '\x7d' then (if skipWs rest = [] then some [] else none)
        else
          match parseMembers s.data.length r with
          | some (ms, rest2) => if skipWs rest2 = [] then some ms else none
          | none => none
      | [] =>
        match parseMembers s.data.length r with
        | some (ms, rest2) => if skipWs rest2 = [] then some ms else none
        | none => none
    else none

/-- `analyze_video_with_chat` (source lines 146-181). The client
initialization on line 151 happens *before* the `try` of line 155, so its
outcome is passed in as an `Except`: if it is an error, that error propagates
out of the function. Inside the `try`, a failure of the remote call is caught
by the `except Exception` handler of line 178, which prints a diagnostic and
returns `{"error": str(e)}` without writing the file; on success the result
dict is printed, dumped to `data.json` with `indent=4`, and returned. -/
def analyze_video_with_chat (initStep : Except String (Client × String))
    (youtube_url : String) : Except String (List (String × String) × Effects) :=
  match initStep with
  | Except.error e => Except.error e
  | Except.ok (client, model_name) =>
    match generate_section_breakdown youtube_url client model_name with
    | Except.error e =>
      Except.ok ([("error", e)],
        ⟨[PrintedLine.msg ("Error analyzing video: " ++ e)], none⟩)
    | Except.ok section_breakdown =>
      let analysis_results : List (String × String) :=
        [("section_breakdown", section_breakdown),
         ("youtube_url", youtube_url),
         ("model_name", model_name)]
      Except.ok (analysis_results,
        ⟨[PrintedLine.dict analysis_results], some (pyJsonDumps4 analysis_results)⟩)

/-- The on-disk state of `data.json` after one invocation, given its prior
state: `open("data.json", "w")` plus `json.dump` replaces the whole content;
an invocation that does not write leaves the prior state. -/
def runFile (st : Option String)
    (r : Except String (List (String × String) × Effects)) : Option String :=
  match r with
  | Except.ok (_, eff) =>
    match eff.written with
    | some content => some content
    | none => st
  | Except.error _ => st

/-- A deterministic stub for the remote dependency: every
`generate_content` call returns the fixed text `t`. -/
def stubOkClient (t : String) : Client := ⟨⟨fun _ => Except.ok ⟨t⟩⟩⟩

/-- A stub for the remote dependency that always raises with message `m`. -/
def stubErrClient (m : String) : Client := ⟨⟨fun _ => Except.error m⟩⟩

/-- The substring of `u` after its last `'/'` — the claim's description of the
`video_id` field, stated independently of `str.split`. -/
def afterLastSlash (u : String) : String :=
  String.mk ((u.data.reverse.takeWhile (fun c => c ≠ '/')).reverse)

/-! ### Lemmas: hex digits and the character escape roundtrip -/

theorem hexVal_toHexDigit (d : Nat) (h : d < 16) : hexVal (toHexDigit d) = some d := by
  interval_cases d <;> decide

theorem hexVal_toHexDigit_mod (x : Nat) : hexVal (toHexDigit (x % 16)) = some (x % 16) :=
  hexVal_toHexDigit _ (Nat.mod_lt _ (by norm_num))

theorem recompose16 (m : Nat) (hm : m < 65536) :
    m / 4096 % 16 * 4096 + m / 256 % 16 * 256 + m / 16 % 16 * 16 + m % 16 = m := by
  omega

theorem char_toNat_lt (c : Char) : c.toNat < 1114112 := by
  rcases c.valid with h | ⟨_, h2⟩
  · have : c.toNat < 55296 := by exact_mod_cast h
    omega
  · exact_mod_cast h2

theorem char_not_surr (c : Char) : c.toNat < 55296 ∨ 57343 < c.toNat := by
  rcases c.valid with h | ⟨h1, _⟩
  · left; exact_mod_cast h
  · right; exact_mod_cast h1

theorem scanLow_pair (n q : Nat) (hq : q < 1024) (l : List Char) :
    scanLow n ('\\' :: 'u' :: (hex4 (56320 + q) ++ l)) =
      ScanStep.chr (Char.ofNat (65536 + (n - 55296) * 1024 + q)) l := by
  simp only [hex4, List.cons_append]
  simp only [scanLow]
  rw [if_pos (by decide)]
  simp only [hexVal_toHexDigit_mod]
  rw [recompose16 (56320 + q) (by omega)]
  rw [if_pos (by omega)]
  simp only [List.nil_append]
  rw [Nat.add_sub_cancel_left]

theorem scanU_plain (n : Nat) (hn : n < 65536) (hlo : ¬ (55296 ≤ n ∧ n < 57344))
    (l : List Char) : scanU (hex4 n ++ l) = ScanStep.chr (Char.ofNat n) l := by
  simp only [hex4, List.cons_append]
  simp only [scanU]
  simp only [hexVal_toHexDigit_mod]
  rw [recompose16 n hn]
  rw [if_neg (by omega), if_neg (by omega)]
  simp only [List.nil_append]

theorem scanU_highPrefix (n : Nat) (hn : n < 65536) (hhi : 55296 ≤ n ∧ n < 56320)
    (X : List Char) : scanU (hex4 n ++ X) = scanLow n ([] ++ X) := by
  simp only [hex4, List.cons_append]
  simp only [scanU]
  simp only [hexVal_toHexDigit_mod]
  rw [recompose16 n hn]
  rw [if_pos hhi]

theorem scanU_surr (q : Nat) (hq : q < 1048576) (l : List Char) :
    scanU (hex4 (55296 + q / 1024) ++ ('\\' :: 'u' :: (hex4 (56320 + q % 1024) ++ l))) =
      ScanStep.chr (Char.ofNat (65536 + q)) l := by
  rw [scanU_highPrefix (55296 + q / 1024) (by omega) (by omega)]
  simp only [List.nil_append]
  rw [scanLow_pair _ _ (Nat.mod_lt _ (by norm_num))]
  rw [Nat.add_sub_cancel_left, Nat.add_assoc]
  rw [show (q / 1024 * 1024 + q % 1024 : Nat) = q from by omega]

theorem scanOne_escapeChar (c : Char) (l : List Char) :
    scanOne (escapeChar c ++ l) = ScanStep.chr c l := by
  by_cases h1 : c = '"'
  · subst h1; simp [escapeChar, scanOne, scanEscape, escDecode]
  by_cases h2 : c = '\\'
  · subst h2; simp [escapeChar, scanOne, scanEscape, escDecode]
  by_cases h3 : c = '\n'
  · subst h3; simp [escapeChar, scanOne, scanEscape, escDecode]
  by_cases h4 : c = '\r'
  · subst h4; simp [escapeChar, scanOne, scanEscape, escDecode]
  by_cases h5 : c = '\t'
  · subst h5; simp [escapeChar, scanOne, scanEscape, escDecode]
  by_cases h6 : c.toNat = 8
  · have hc : c = Char.ofNat 8 := by rw [← h6, Char.ofNat_toNat]
    subst hc; simp [escapeChar, scanOne, scanEscape, escDecode]
  by_cases h7 : c.toNat = 12
  · have hc : c = Char.ofNat 12 := by rw [← h7, Char.ofNat_toNat]
    subst hc; simp [escapeChar, scanOne, scanEscape, escDecode]
  by_cases h8 : 32 ≤ c.toNat ∧ c.toNat ≤ 126
  · have e1 : escapeChar c = [c] := by
      simp [escapeChar, h1, h2, h3, h4, h5, h6, h7, h8]
    rw [e1]
    have hno : ¬ c.toNat < 32 := by omega
    simp [scanOne, h1, h2, hno]
  by_cases h9 : c.toNat < 65536
  · have e1 : escapeChar c = '\\' :: 'u' :: hex4 c.toNat := by
      simp [escapeChar, h1, h2, h3, h4, h5, h6, h7, h8, h9]
    rw [e1]
    simp only [List.cons_append]
    simp only [scanOne]
    rw [if_neg (by decide), if_pos (by decide)]
    simp only [scanEscape]
    rw [if_pos (by decide)]
    rw [scanU_plain c.toNat h9 (by rcases char_not_surr c with hs | hs <;> omega)]
    rw [Char.ofNat_toNat]
  · have hlt := char_toNat_lt c
    have e1 : escapeChar c = '\\' :: 'u' :: (hex4 (55296 + (c.toNat - 65536) / 1024) ++
        ('\\' :: 'u' :: hex4 (56320 + (c.toNat - 65536) % 1024))) := by
      simp [escapeChar, h1, h2, h3, h4, h5, h6, h7, h8, h9]
    rw [e1]
    simp only [List.cons_append, List.append_assoc]
    simp only [scanOne]
    rw [if_neg (by decide), if_pos (by decide)]
    simp only [scanEscape]
    rw [if_pos (by decide)]
    rw [scanU_surr (c.toNat - 65536) (by omega)]
    rw [show 65536 + (c.toNat - 65536) = c.toNat from by omega]
    rw [Char.ofNat_toNat]

theorem scanOne_quote (l : List Char) : scanOne ('"' :: l) = ScanStep.close l := by
  simp [scanOne]

theorem scanStr_escape (body : List Char) : ∀ (fuel : Nat), body.length + 1 ≤ fuel →
    ∀ rest : List Char, scanStr fuel (pyEscape body ++ ('"' :: rest)) = some (body, rest) := by
  induction body with
  | nil =>
    intro fuel hf rest
    obtain ⟨f, rfl⟩ : ∃ f, fuel = f + 1 := ⟨fuel - 1, by omega⟩
    simp only [pyEscape, List.nil_append, scanStr, scanOne_quote]
  | cons c body ih =>
    intro fuel hf rest
    obtain ⟨f, rfl⟩ : ∃ f, fuel = f + 1 := ⟨fuel - 1, by omega⟩
    simp only [pyEscape, List.append_assoc]
    simp only [scanStr]
    rw [scanOne_escapeChar]
    have hih := ih f (by simp at hf; omega) rest
    simp only [hih]

theorem escapeChar_length_pos (c : Char) : 1 ≤ (escapeChar c).length := by
  unfold escapeChar
  repeat' split
  all_goals simp [hex4]

theorem pyEscape_length (l : List Char) : l.length ≤ (pyEscape l).length := by
  induction l with
  | nil => simp [pyEscape]
  | cons c r ih =>
    simp only [pyEscape, List.length_append, List.length_cons]
    have := escapeChar_length_pos c
    omega

theorem parseStrAux_escape (body rest : List Char) :
    parseStrAux (pyEscape body ++ ('"' :: rest)) = some (body, rest) := by
  unfold parseStrAux
  apply scanStr_escape
  have h1 := pyEscape_length body
  simp only [List.length_append, List.length_cons]
  omega

theorem parseJString_escape (body rest : List Char) :
    parseJString ('"' :: (pyEscape body ++ ('"' :: rest))) = some (body, rest) := by
  simp [parseJString, parseStrAux_escape]

/-! ### Lemmas: whitespace skipping and object member roundtrip -/

theorem skipWs_ws (c : Char) (hc : c = ' ' ∨ c = '\t' ∨ c = '\n' ∨ c = '\r')
    (l : List Char) : skipWs (c :: l) = skipWs l := by
  simp [skipWs, hc]

theorem skipWs_space (l : List Char) : skipWs (' ' :: l) = skipWs l := by simp [skipWs]

theorem skipWs_newline (l : List Char) : skipWs ('\n' :: l) = skipWs l := by simp [skipWs]

theorem skipWs_quote (l : List Char) : skipWs ('"' :: l) = '"' :: l := by simp [skipWs]

theorem skipWs_colon (l : List Char) : skipWs (':' :: l) = ':' :: l := by simp [skipWs]

theorem skipWs_comma (l : List Char) : skipWs (',' :: l) = ',' :: l := by simp [skipWs]

theorem skipWs_rbrace (l : List Char) : skipWs ('\x7d' :: l) = '\x7d' :: l := by
  simp [skipWs]

theorem serMembers_single (k v : String) : serMembers [(k, v)] = indent4 ++ serMember k v := rfl

theorem serMembers_cons_cons (k v : String) (p : String × String)
    (rest : List (String × String)) :
    serMembers ((k, v) :: p :: rest) =
      indent4 ++ (serMember k v ++ (',' :: '\n' :: serMembers (p :: rest))) := rfl

theorem parseMembers_skip_ws (fuel : Nat) (c : Char)
    (hc : c = ' ' ∨ c = '\t' ∨ c = '\n' ∨ c = '\r') (l : List Char) :
    parseMembers fuel (c :: l) = parseMembers fuel l := by
  cases fuel with
  | zero => rfl
  | succ f => simp only [parseMembers, skipWs_ws c hc l]

theorem parseMembers_newline (fuel : Nat) (l : List Char) :
    parseMembers fuel ('\n' :: l) = parseMembers fuel l :=
  parseMembers_skip_ws fuel '\n' (by simp) l

theorem parseMembers_serMembers : ∀ (d : List (String × String)), d ≠ [] →
    ∀ fuel : Nat, d.length ≤ fuel → ∀ tail : List Char,
    parseMembers fuel (serMembers d ++ ('\n' :: '\x7d' :: tail)) = some (d, tail) := by
  intro d
  induction d with
  | nil => intro hne; exact absurd rfl hne
  | cons kv rest ih =>
    obtain ⟨k, v⟩ := kv
    intro _ fuel hf tail
    obtain ⟨f, rfl⟩ : ∃ f, fuel = f + 1 := ⟨fuel - 1, by simp at hf; omega⟩
    cases rest with
    | nil =>
      rw [serMembers_single]
      simp only [serMember, indent4, List.cons_append, List.append_assoc, List.nil_append]
      simp [parseMembers, skipWs_space, skipWs_quote, skipWs_colon, skipWs_newline,
        skipWs_rbrace, parseJString_escape]
    | cons r rs =>
      rw [serMembers_cons_cons]
      simp only [serMember, indent4, List.cons_append, List.append_assoc, List.nil_append]
      simp only [parseMembers, skipWs_space, skipWs_quote, skipWs_colon, skipWs_comma,
        parseJString_escape]
      rw [parseMembers_skip_ws f '\n' (by simp) _]
      rw [ih (by simp) f (by simp at hf ⊢; omega) tail]
      simp

theorem skipWs_lbrace (l : List Char) : skipWs ('\x7b' :: l) = '\x7b' :: l := by
  simp [skipWs]

theorem serMembers_length : ∀ d : List (String × String), d.length ≤ (serMembers d).length := by
  intro d
  induction d with
  | nil => simp [serMembers]
  | cons kv rest ih =>
    obtain ⟨k, v⟩ := kv
    cases rest with
    | nil =>
      rw [serMembers_single]
      simp [indent4]
    | cons r rs =>
      rw [serMembers_cons_cons]
      simp only [List.length_append, List.length_cons, List.length_nil, indent4] at ih ⊢
      omega

theorem skipWs_serMembers_cons (k v : String) (rest : List (String × String))
    (X : List Char) :
    skipWs (serMembers ((k, v) :: rest) ++ X) =
      '"' :: ((pyEscape k.data ++ ('"' :: ':' :: ' ' :: '"' :: (pyEscape v.data ++ ['"']))) ++
        (if rest.isEmpty then X else ',' :: '\n' :: serMembers rest ++ X)) := by
  cases rest with
  | nil =>
    rw [serMembers_single]
    simp only [serMember, indent4, List.cons_append, List.append_assoc, List.nil_append,
      skipWs_space, skipWs_quote, List.isEmpty_nil, if_true]
  | cons r rs =>
    rw [serMembers_cons_cons]
    simp only [serMember, indent4, List.cons_append, List.append_assoc, List.nil_append,
      skipWs_space, skipWs_quote, List.isEmpty_cons, if_false, Bool.false_eq_true]

theorem pyJsonLoadsObj_dumps4 (d : List (String × String)) :
    pyJsonLoadsObj (pyJsonDumps4 d) = some d := by
  cases d with
  | nil => rfl
  | cons kv rest =>
    obtain ⟨k, v⟩ := kv
    have hdump : pyJsonDumps4 ((k, v) :: rest) =
        String.mk ('\x7b' :: '\n' :: (serMembers ((k, v) :: rest) ++ ['\n', '\x7d'])) := rfl
    rw [hdump]
    have hdata : (String.mk ('\x7b' :: '\n' :: (serMembers ((k, v) :: rest) ++
        ['\n', '\x7d']))).data = '\x7b' :: '\n' :: (serMembers ((k, v) :: rest) ++
        ['\n', '\x7d']) := rfl
    have hfuel : ((k, v) :: rest).length ≤
        ('\x7b' :: '\n' :: (serMembers ((k, v) :: rest) ++ ['\n', '\x7d'])).length := by
      have := serMembers_length ((k, v) :: rest)
      simp only [List.length_cons, List.length_append] at this ⊢
      omega
    unfold pyJsonLoadsObj
    simp only [hdata, skipWs_lbrace]
    simp only [if_true]
    simp only [skipWs_newline, skipWs_serMembers_cons]
    rw [parseMembers_newline]
    rw [parseMembers_serMembers ((k, v) :: rest) (by simp) _ hfuel []]
    simp [skipWs]

/-! ### Lemmas: Python split and the video id -/

theorem pySplitChar_ne_nil (sep : Char) (l : List Char) : pySplitChar sep l ≠ [] := by
  cases l with
  | nil => simp [pySplitChar]
  | cons c r =>
    simp only [pySplitChar]
    by_cases h : c = sep
    · simp [h]
    · simp only [h, if_false]
      cases pySplitChar sep r <;> simp

theorem pySplitChar_length (sep : Char) : ∀ l : List Char,
    (pySplitChar sep l).length = l.count sep + 1 := by
  intro l
  induction l with
  | nil => simp [pySplitChar]
  | cons c r ih =>
    simp only [pySplitChar]
    by_cases h : c = sep
    · simp [h, List.count_cons, ih]
    · simp only [h, if_false]
      cases hs : pySplitChar sep r with
      | nil => exact absurd hs (pySplitChar_ne_nil sep r)
      | cons g gs =>
        rw [hs] at ih
        simp only [List.length_cons] at ih ⊢
        rw [List.count_cons]
        simp [h, ih]

theorem pySplitChar_no_sep (sep : Char) : ∀ l : List Char, sep ∉ l →
    pySplitChar sep l = [l] := by
  intro l
  induction l with
  | nil => intro _; rfl
  | cons c r ih =>
    intro h
    have hc : ¬ c = sep := fun he => h (he ▸ List.mem_cons_self c r)
    have hr : sep ∉ r := fun hm => h (List.mem_cons_of_mem c hm)
    simp only [pySplitChar, hc, if_false, ih hr]

theorem takeWhile_append_all (p : Char → Bool) (xs ys : List Char)
    (h : ∀ x ∈ xs, p x) : (xs ++ ys).takeWhile p = xs ++ ys.takeWhile p := by
  induction xs with
  | nil => simp
  | cons a xs ih =>
    have ha : p a := h a (List.mem_cons_self a xs)
    simp only [List.cons_append, List.takeWhile_cons, ha, if_true]
    rw [ih (fun x hx => h x (List.mem_cons_of_mem a hx))]

theorem takeWhile_append_stop (p : Char → Bool) (xs ys : List Char)
    (h : ∃ x ∈ xs, ¬ p x) : (xs ++ ys).takeWhile p = xs.takeWhile p := by
  induction xs with
  | nil => obtain ⟨x, hx, _⟩ := h; exact absurd hx (List.not_mem_nil x)
  | cons a xs ih =>
    by_cases ha : p a
    · simp only [List.cons_append, List.takeWhile_cons, ha, if_true]
      obtain ⟨x, hx, hpx⟩ := h
      rcases List.mem_cons.mp hx with rfl | hx2
      · exact absurd ha hpx
      · rw [ih ⟨x, hx2, hpx⟩]
    · simp only [List.cons_append, List.takeWhile_cons]
      simp [ha]

theorem pyLast_cons_cons (x y : List Char) (xs : List (List Char)) :
    pyLast (x :: y :: xs) = pyLast (y :: xs) := by
  simp [pyLast, List.getLastD_cons]

theorem pyLast_pySplitChar (sep : Char) : ∀ l : List Char, sep ∈ l →
    pyLast (pySplitChar sep l) = (l.reverse.takeWhile (fun c => c ≠ sep)).reverse := by
  intro l
  induction l with
  | nil => intro h; exact absurd h (List.not_mem_nil sep)
  | cons c r ih =>
    intro h
    by_cases hc : c = sep
    · subst hc
      have hsplit : pySplitChar c (c :: r) = [] :: pySplitChar c r := by
        simp [pySplitChar]
      rw [hsplit]
      by_cases hr : c ∈ r
      · obtain ⟨g, gs, hs⟩ : ∃ g gs, pySplitChar c r = g :: gs := by
          cases hq : pySplitChar c r with
          | nil => exact absurd hq (pySplitChar_ne_nil c r)
          | cons g gs => exact ⟨g, gs, rfl⟩
        rw [hs, pyLast_cons_cons, ← hs, ih hr]
        rw [List.reverse_cons, takeWhile_append_stop _ _ _ ⟨c, List.mem_reverse.mpr hr, by simp⟩]
      · rw [pySplitChar_no_sep c r hr]
        rw [show pyLast [[], r] = r from by simp [pyLast, List.getLastD_cons]]
        rw [List.reverse_cons, takeWhile_append_all _ _ _ ?hall]
        case hall =>
          intro x hx
          have hxr : x ∈ r := List.mem_reverse.mp hx
          simp only [ne_eq, decide_eq_true_eq]
          intro he
          exact hr (he ▸ hxr)
        simp
    · have hr : sep ∈ r := by
        rcases List.mem_cons.mp h with he | hm
        · exact absurd he.symm hc
        · exact hm
      obtain ⟨g, gs, hs⟩ : ∃ g gs, pySplitChar sep r = g :: gs := by
        cases hq : pySplitChar sep r with
        | nil => exact absurd hq (pySplitChar_ne_nil sep r)
        | cons g gs => exact ⟨g, gs, rfl⟩
      have hsplit : pySplitChar sep (c :: r) = (c :: g) :: gs := by
        simp [pySplitChar, hc, hs]
      have hlen := pySplitChar_length sep r
      rw [hs] at hlen
      have hcount : r.count sep ≠ 0 := by
        intro h0
        exact (List.count_eq_zero.mp h0) hr
      have hgs : gs ≠ [] := by
        intro he
        rw [he] at hlen
        simp at hlen
        omega
      rw [hsplit]
      cases gs with
      | nil => exact absurd rfl hgs
      | cons g2 gs2 =>
        rw [pyLast_cons_cons, ← pyLast_cons_cons g g2 gs2, ← hs, ih hr]
        rw [List.reverse_cons, takeWhile_append_stop _ _ _ ⟨sep, List.mem_reverse.mpr hr, by simp⟩]

/-! ### The claims -/

/-- C1: for every video reference `u`, calling `analyze_video_with_chat` with the
remote dependency replaced by a deterministic stub returning text `t` produces a
result mapping with exactly the keys `section_breakdown`, `youtube_url`,
`model_name`, where `youtube_url` is `u` verbatim and `section_breakdown` is `t`
(and, additionally, the dict is printed and dumped to `data.json`). -/
theorem claim_C1_success_record (gemini_api_key : Option String) (u t : String) :
    analyze_video_with_chat
      (Except.ok (initialize_gemini_client (fun _ => stubOkClient t) gemini_api_key)) u =
    Except.ok
      ([("section_breakdown", t), ("youtube_url", u),
        ("model_name", "models/gemini-2.0-flash")],
       ⟨[PrintedLine.dict
           [("section_breakdown", t), ("youtube_url", u),
            ("model_name", "models/gemini-2.0-flash")]],
        some (pyJsonDumps4
           [("section_breakdown", t), ("youtube_url", u),
            ("model_name", "models/gemini-2.0-flash")])⟩) := rfl

/-- C2: if the remote call made by the section-breakdown builder raises with
stringified message `m`, `analyze_video_with_chat` returns `{"error": m}`
(printing the diagnostic, not raising). -/
theorem claim_C2_error_record (initPair : Client × String) (u m : String)
    (h : initPair.1.models.generate_content
        (generate_section_breakdown_request u initPair.2) = Except.error m) :
    analyze_video_with_chat (Except.ok initPair) u =
      Except.ok ([("error", m)],
        ⟨[PrintedLine.msg ("Error analyzing video: " ++ m)], none⟩) := by
  obtain ⟨client, mn⟩ := initPair
  simp only at h
  have hb : generate_section_breakdown u client mn = Except.error m := by
    unfold generate_section_breakdown
    rw [h]
    rfl
  simp only [analyze_video_with_chat, hb]

/-- Witness for C2 at the spec's example failure scenario. -/
theorem claim_C2_witness :
    analyze_video_with_chat
      (Except.ok (stubErrClient "quota exceeded", "models/gemini-2.0-flash"))
      "https://youtu.be/abc123" =
    Except.ok ([("error", "quota exceeded")],
      ⟨[PrintedLine.msg ("Error analyzing video: " ++ "quota exceeded")], none⟩) :=
  claim_C2_error_record (stubErrClient "quota exceeded", "models/gemini-2.0-flash")
    "https://youtu.be/abc123" "quota exceeded" rfl

/-- C3: on every successful invocation, the content written to `data.json` is
valid JSON that parses back to the very mapping the orchestrator returned. -/
theorem claim_C3_roundtrip (initPair : Client × String) (u : String)
    (d : List (String × String)) (eff : Effects) (w : String)
    (h : analyze_video_with_chat (Except.ok initPair) u = Except.ok (d, eff))
    (hw : eff.written = some w) :
    pyJsonLoadsObj w = some d := by
  obtain ⟨client, mn⟩ := initPair
  simp only [analyze_video_with_chat] at h
  cases hr : generate_section_breakdown u client mn with
  | error e =>
    rw [hr] at h
    simp only [Except.ok.injEq, Prod.mk.injEq] at h
    obtain ⟨hd, heff⟩ := h
    rw [← heff] at hw
    simp at hw
  | ok sb =>
    rw [hr] at h
    simp only [Except.ok.injEq, Prod.mk.injEq] at h
    obtain ⟨hd, heff⟩ := h
    subst hd
    rw [← heff] at hw
    simp only [Option.some.injEq] at hw
    subst hw
    exact pyJsonLoadsObj_dumps4 _

/-- Witness for C3 at the spec's example scenario. -/
theorem claim_C3_witness :
    pyJsonLoadsObj (pyJsonDumps4
      [("section_breakdown", "\x7b\"sections\": []\x7d"),
       ("youtube_url", "https://youtu.be/abc123"),
       ("model_name", "models/gemini-2.0-flash")]) =
    some
      [("section_breakdown", "\x7b\"sections\": []\x7d"),
       ("youtube_url", "https://youtu.be/abc123"),
       ("model_name", "models/gemini-2.0-flash")] :=
  claim_C3_roundtrip
    (stubOkClient "\x7b\"sections\": []\x7d", "models/gemini-2.0-flash")
    "https://youtu.be/abc123"
    [("section_breakdown", "\x7b\"sections\": []\x7d"),
     ("youtube_url", "https://youtu.be/abc123"),
     ("model_name", "models/gemini-2.0-flash")]
    ⟨[PrintedLine.dict
        [("section_breakdown", "\x7b\"sections\": []\x7d"),
         ("youtube_url", "https://youtu.be/abc123"),
         ("model_name", "models/gemini-2.0-flash")]],
      some (pyJsonDumps4
        [("section_breakdown", "\x7b\"sections\": []\x7d"),
         ("youtube_url", "https://youtu.be/abc123"),
         ("model_name", "models/gemini-2.0-flash")])⟩
    (pyJsonDumps4
      [("section_breakdown", "\x7b\"sections\": []\x7d"),
       ("youtube_url", "https://youtu.be/abc123"),
       ("model_name", "models/gemini-2.0-flash")])
    rfl rfl

/-- Counterexample to C4 as stated: an exception raised during client
initialization (source line 151, *before* the `try` of line 155) escapes
`analyze_video_with_chat` instead of being converted into an error record. -/
theorem claim_C4_counterexample :
    analyze_video_with_chat (Except.error "client initialization failed")
      "https://youtu.be/abc123" =
    Except.error "client initialization failed" := rfl

/-- C4 amended: every exception raised *inside the `try` block* (the builder
call onward) is caught and turned into a returned record, but an exception
during client initialization propagates to the caller unchanged. -/
theorem claim_C4_amended :
    (∀ (p : Client × String) (u : String), ∃ d eff,
        analyze_video_with_chat (Except.ok p) u = Except.ok (d, eff)) ∧
    (∀ e u : String,
        analyze_video_with_chat (Except.error e) u = Except.error e) := by
  constructor
  · intro p u
    obtain ⟨client, mn⟩ := p
    cases hr : generate_section_breakdown u client mn with
    | error e =>
      exact ⟨[("error", e)],
        ⟨[PrintedLine.msg ("Error analyzing video: " ++ e)], none⟩,
        by simp only [analyze_video_with_chat, hr]⟩
    | ok sb =>
      exact ⟨[("section_breakdown", sb), ("youtube_url", u), ("model_name", mn)],
        ⟨[PrintedLine.dict
            [("section_breakdown", sb), ("youtube_url", u), ("model_name", mn)]],
          some (pyJsonDumps4
            [("section_breakdown", sb), ("youtube_url", u), ("model_name", mn)])⟩,
        by simp only [analyze_video_with_chat, hr]⟩
  · intro e u
    rfl

/-- C5: when the remote call raises, the error path performs no write to
`data.json`: the prior on-disk state is unchanged. -/
theorem claim_C5_no_write_on_error (gemini_api_key : Option String) (u m : String)
    (prior : Option String) :
    analyze_video_with_chat
      (Except.ok (initialize_gemini_client (fun _ => stubErrClient m) gemini_api_key)) u =
      Except.ok ([("error", m)],
        ⟨[PrintedLine.msg ("Error analyzing video: " ++ m)], none⟩) ∧
    runFile prior
      (analyze_video_with_chat
        (Except.ok (initialize_gemini_client (fun _ => stubErrClient m) gemini_api_key)) u) =
      prior :=
  ⟨rfl, rfl⟩

/-- C6: after any first invocation, a second successful invocation leaves
`data.json` holding exactly the serialization of the second result mapping,
regardless of the prior file state (overwrite, never append). -/
theorem claim_C6_overwrite (st : Option String)
    (r1 : Except String (List (String × String) × Effects))
    (gemini_api_key : Option String) (u t : String) :
    runFile (runFile st r1)
      (analyze_video_with_chat
        (Except.ok (initialize_gemini_client (fun _ => stubOkClient t) gemini_api_key)) u) =
    some (pyJsonDumps4
      [("section_breakdown", t), ("youtube_url", u),
       ("model_name", "models/gemini-2.0-flash")]) := rfl

/-- C7: each of the three prompt builders propagates a failure of the
underlying `generate_content` dispatch unchanged to its caller. -/
theorem claim_C7_builders_propagate (client : Client) (u q mn e : String) :
    (client.models.generate_content (generate_video_summary_request u mn) =
        Except.error e →
      generate_video_summary u client mn = Except.error e) ∧
    (client.models.generate_content (generate_section_breakdown_request u mn) =
        Except.error e →
      generate_section_breakdown u client mn = Except.error e) ∧
    (client.models.generate_content (process_user_question_request q u mn) =
        Except.error e →
      process_user_question q u client mn = Except.error e) := by
  refine ⟨fun h => ?_, fun h => ?_, fun h => ?_⟩
  · unfold generate_video_summary
    rw [h]
    rfl
  · unfold generate_section_breakdown
    rw [h]
    rfl
  · unfold process_user_question
    rw [h]
    rfl

/-- Witness for C7 with an always-raising stub. -/
theorem claim_C7_witness :
    generate_video_summary "https://youtu.be/abc123" (stubErrClient "boom")
        "models/gemini-2.0-flash" = Except.error "boom" ∧
    generate_section_breakdown "https://youtu.be/abc123" (stubErrClient "boom")
        "models/gemini-2.0-flash" = Except.error "boom" ∧
    process_user_question "what is this video about?" "https://youtu.be/abc123"
        (stubErrClient "boom") "models/gemini-2.0-flash" = Except.error "boom" := by
  obtain ⟨a, b, c⟩ := claim_C7_builders_propagate (stubErrClient "boom")
    "https://youtu.be/abc123" "what is this video about?" "models/gemini-2.0-flash" "boom"
  exact ⟨a rfl, b rfl, c rfl⟩

/-- C8: for every environment state (credential present, absent, or malformed),
`initialize_gemini_client` returns the pair of the (externally constructed)
client handle and the fixed model identifier, with no validation and no
failure of its own. -/
theorem claim_C8_init (genaiClient : Option String → Client)
    (gemini_api_key : Option String) :
    initialize_gemini_client genaiClient gemini_api_key =
      (genaiClient gemini_api_key, "models/gemini-2.0-flash") := rfl

/-- C9: `process_user_question` dispatches exactly one request, whose text
instruction embeds the user's question verbatim between the two fixed template
halves. -/
theorem claim_C9_question_embedded (q u mn : String) (client : Client) :
    process_user_question q u client mn =
      (client.models.generate_content
        (process_user_question_request q u mn)).map GenAIResponse.text ∧
    (∃ pre post : String,
      process_user_question_request q u mn =
        ⟨mn, ⟨[Part.ofFile u, Part.ofText (pre ++ q ++ post)]⟩⟩) := by
  constructor
  · cases hx : client.models.generate_content (process_user_question_request q u mn) with
    | error e => unfold process_user_question; rw [hx]; rfl
    | ok resp => unfold process_user_question; rw [hx]; rfl
  · exact ⟨question_prompt_before, question_prompt_after, rfl⟩

/-- C10: `extract_video_metadata` returns exactly the four placeholder fields,
with `video_id` the substring of the URL after its last slash, or the whole
URL when it has no slash. -/
theorem claim_C10_metadata (u : String) :
    extract_video_metadata u =
      [("title", "Video Title"), ("duration", "Unknown"),
       ("description", "Video Description"),
       ("video_id", if '/' ∈ u.data then afterLastSlash u else u)] := by
  unfold extract_video_metadata afterLastSlash
  by_cases h : '/' ∈ u.data
  · simp only [if_pos h]
    rw [pyLast_pySplitChar '/' u.data h]
  · simp only [if_neg h]

end BasicQuery
